import Mathlib

/-!
Verification of the community-scoped similarity engine
(`model_optimised.py`).

The backing Neo4j graph store is modelled as a `Store`:
* `subjects` — the names of the `SubjectNode`s, in store order;
* `objects` — the names of the `ObjectNode`s;
* `community` — the (nullable) `community` property of each subject,
  written by the Louvain clustering step;
* `neighbors` — for each subject, the set of `ObjectNode` names reached
  by a `RELATIONSHIP` edge (the Python code collects them into a `set`);
* `cache` — the directed `SIMILAR_TO` edges with their `similarity`
  property (`none` means no such edge).

Similarity scores are modelled as rationals (`ℚ`): every arithmetic
operation the program performs on scores (division of set cardinalities,
sums, `min`, multiplication by `0.1`) is exact rational arithmetic.
-/

structure Store where
  subjects : List String
  objects : List String
  community : String → Option Int
  neighbors : String → Finset String
  cache : String → String → Option ℚ

/-- `get_node_community`: `MATCH (n:SubjectNode {name: $trial_id}) RETURN
n.community`.  Yields `none` both when no node with that name exists and
when the node exists but its `community` property is null. -/
def get_node_community (s : Store) (trial_id : String) : Option Int :=
  if trial_id ∈ s.subjects then s.community trial_id else none

/-- `get_community_members`: all `SubjectNode`s whose `community`
property equals the given id, in store order. -/
def get_community_members (s : Store) (community_id : Int) : List String :=
  s.subjects.filter (fun n => s.community n = some community_id)

/-- `create_similarity_relationship`: `MATCH` both endpoints, then
`MERGE`/`SET` a `SIMILAR_TO` edge in each direction with the given
similarity.  When either endpoint does not exist the `MATCH` produces no
rows and the whole query is a silent no-op. -/
def create_similarity_relationship (s : Store) (trial1 trial2 : String) (similarity : ℚ) :
    Store :=
  if trial1 ∈ s.subjects ∧ trial2 ∈ s.subjects then
    { s with cache := fun a b =>
        if (a = trial1 ∧ b = trial2) ∨ (a = trial2 ∧ b = trial1) then some similarity
        else s.cache a b }
  else s

/-- `get_cached_similarity`: read the `similarity` property of the
directed `SIMILAR_TO` edge from `trial1` to `trial2`, if that edge
exists. -/
def get_cached_similarity (s : Store) (trial1 trial2 : String) : Option ℚ :=
  s.cache trial1 trial2

/-- `get_node_neighbors`: the set of `ObjectNode` names linked to the
given subject by a `RELATIONSHIP` edge. -/
def get_node_neighbors (s : Store) (trial_id : String) : Finset String :=
  s.neighbors trial_id

/-- `get_intermediate_similarities`: the dictionary of cached
similarities from `trial_id` to each community member (edges whose far
end is in `community_members`). -/
def get_intermediate_similarities (s : Store) (trial_id : String)
    (community_members : List String) : String → Option ℚ :=
  fun m => if m ∈ community_members then s.cache trial_id m else none

/-- One iteration of the boost loop in `compute_optimized_jaccard`: the
contribution of community member `m` to `boost_factor`.  Mirrors the
Python control flow: skip `m ∈ [trial1, trial2]`; take `sim(trial1,m)`
from the precomputed dictionary if present, otherwise from the cache
(skipping `m` when absent); then add `min(sim1, sim2) * 0.1` when
`sim(trial2,m)` is also cached. -/
def boost_step (s : Store) (trial1 trial2 : String) (intermediate_sims : String → Option ℚ)
    (m : String) : ℚ :=
  if m = trial1 ∨ m = trial2 then 0
  else
    match intermediate_sims m with
    | some sim1 =>
        match get_cached_similarity s trial2 m with
        | some sim2 => min sim1 sim2 * (1 / 10)
        | none => 0
    | none =>
        match get_cached_similarity s trial1 m with
        | none => 0
        | some sim1 =>
            match get_cached_similarity s trial2 m with
            | some sim2 => min sim1 sim2 * (1 / 10)
            | none => 0

/-- The accumulated `boost_factor` over the community member list. -/
def boost_factor (s : Store) (trial1 trial2 : String) (community_members : List String)
    (intermediate_sims : String → Option ℚ) : ℚ :=
  (community_members.map (boost_step s trial1 trial2 intermediate_sims)).sum

/-- `compute_optimized_jaccard`: cache-first similarity of two subjects.
On a cache hit the cached value is returned and the store is untouched.
On a miss: Jaccard coefficient of the two neighbor sets (0 when the
union is empty), plus the community boost, clamped to 1; the result is
persisted via `create_similarity_relationship`.  Returns the score and
the updated store. -/
def compute_optimized_jaccard (s : Store) (trial1 trial2 : String)
    (community_members : List String) (intermediate_sims : String → Option ℚ) :
    ℚ × Store :=
  match get_cached_similarity s trial1 trial2 with
  | some cached_sim => (cached_sim, s)
  | none =>
      let neighbors1 := get_node_neighbors s trial1
      let neighbors2 := get_node_neighbors s trial2
      let intersection := neighbors1 ∩ neighbors2
      let union := neighbors1 ∪ neighbors2
      let similarity :=
        if union.card = 0 then (0 : ℚ)
        else
          min 1 ((intersection.card : ℚ) / (union.card : ℚ)
            + boost_factor s trial1 trial2 community_members intermediate_sims)
      (similarity, create_similarity_relationship s trial1 trial2 similarity)

/-- Stable insertion into a list sorted by descending similarity: the
new element goes before the first strictly smaller entry, after every
entry with a greater-or-equal score. -/
def sortedInsert (x : String × ℚ) : List (String × ℚ) → List (String × ℚ)
  | [] => [x]
  | y :: ys => if y.2 ≤ x.2 then x :: y :: ys else y :: sortedInsert x ys

/-- The stable descending sort performed by
`similarities.sort(key=..., reverse=True)` (Python's sort is stable and
`reverse=True` keeps equal-keyed entries in input order). -/
def sortDesc : List (String × ℚ) → List (String × ℚ)
  | [] => []
  | x :: xs => sortedInsert x (sortDesc xs)

/-- The scoring loop of `find_similar_trials_optimized`: iterate over
the remaining members in order, scoring each against the query trial and
threading the store (so cache writes from earlier iterations are seen by
later ones), collecting `(member, similarity)` records in input order. -/
def score_loop (s : Store) (trial_id : String) (intermediate_sims : String → Option ℚ)
    (community_members : List String) :
    List String → List (String × ℚ) × Store
  | [] => ([], s)
  | m :: ms =>
      let r := compute_optimized_jaccard s trial_id m community_members intermediate_sims
      let rest := score_loop r.2 trial_id intermediate_sims community_members ms
      ((m, r.1) :: rest.1, rest.2)

/-- `find_similar_trials_optimized`: resolve the community (empty result
when there is none), fetch its members, drop the first occurrence of the
query trial (`list.remove`), precompute the cached intermediate
similarities, score every member, then stable-sort descending and keep
the first `top_k`. -/
def find_similar_trials_optimized (s : Store) (trial_id : String) (top_k : Nat) :
    List (String × ℚ) × Store :=
  match get_node_community s trial_id with
  | none => ([], s)
  | some community_id =>
      let community_members := (get_community_members s community_id).erase trial_id
      let intermediate_sims := get_intermediate_similarities s trial_id community_members
      let r := score_loop s trial_id intermediate_sims community_members community_members
      ((sortDesc r.1).take top_k, r.2)

/-- The node kinds whose label is interpolated into `check_node_exists`. -/
inductive NodeLabel where
  | SubjectNode
  | ObjectNode
deriving DecidableEq

/-- Removal of leading and trailing whitespace, modelling both Python's
`str.strip()` and Cypher's `TRIM`. -/
def trimStr (s : String) : String :=
  ⟨((s.data.dropWhile fun c => c.isWhitespace).reverse.dropWhile
      (fun c => c.isWhitespace)).reverse⟩

/-- `check_node_exists`: `MATCH (n:{label} {name: TRIM($node_name)})
RETURN COUNT(n) > 0`, called with the Python-side `node_name.strip()` —
the stored names are compared against the doubly trimmed input. -/
def check_node_exists (s : Store) (node_name : String) (label : NodeLabel) : Bool :=
  let stored := match label with
    | .SubjectNode => s.subjects
    | .ObjectNode => s.objects
  decide (0 < (stored.filter (fun n => n = trimStr (trimStr node_name))).length)

/-! ### Helper lemmas -/

lemma get_cached_create_left (s : Store) (a b : String) (q : ℚ)
    (ha : a ∈ s.subjects) (hb : b ∈ s.subjects) :
    get_cached_similarity (create_similarity_relationship s a b q) a b = some q := by
  unfold create_similarity_relationship get_cached_similarity
  rw [if_pos ⟨ha, hb⟩]
  simp

lemma get_cached_create_right (s : Store) (a b : String) (q : ℚ)
    (ha : a ∈ s.subjects) (hb : b ∈ s.subjects) :
    get_cached_similarity (create_similarity_relationship s a b q) b a = some q := by
  unfold create_similarity_relationship get_cached_similarity
  rw [if_pos ⟨ha, hb⟩]
  simp

lemma create_not_found (s : Store) (a b : String) (q : ℚ)
    (h : a ∉ s.subjects ∨ b ∉ s.subjects) :
    create_similarity_relationship s a b q = s := by
  unfold create_similarity_relationship
  rcases h with h | h
  · rw [if_neg (fun hc => h hc.1)]
  · rw [if_neg (fun hc => h hc.2)]

lemma find_none (s : Store) (t : String) (k : Nat)
    (h : get_node_community s t = none) :
    find_similar_trials_optimized s t k = ([], s) := by
  simp [find_similar_trials_optimized, h]

/-! ### Concrete stores used by the witnesses -/

/-- A small concrete store: three subjects in community 1 (the spec's §8
example scenario), with the pair `(A, B)` already cached at `1/2` in
both directions. -/
def exStore : Store where
  subjects := ["A", "B", "C"]
  objects := ["x", "y", "z"]
  community := fun n => if n = "A" ∨ n = "B" ∨ n = "C" then some 1 else none
  neighbors := fun n => if n = "A" then {"x", "y"} else if n = "B" then {"y", "z"} else ∅
  cache := fun a b => if (a = "A" ∧ b = "B") ∨ (a = "B" ∧ b = "A") then some (1/2) else none

/-! ### Claims -/

/-- C2: on a cache hit, `compute_optimized_jaccard` returns the cached
value unchanged and leaves the store untouched; and its result does not
depend on the neighbor structure at all (so `get_node_neighbors` is
never consulted): the same value is returned whatever the neighbor map
is. -/
theorem compute_cache_hit_returns_cached (s : Store) (a b : String)
    (community_members : List String) (intermediate_sims : String → Option ℚ) (c : ℚ)
    (h : get_cached_similarity s a b = some c) :
    compute_optimized_jaccard s a b community_members intermediate_sims = (c, s) ∧
    ∀ nbrs : String → Finset String,
      compute_optimized_jaccard { s with neighbors := nbrs } a b community_members
          intermediate_sims = (c, { s with neighbors := nbrs }) := by
  refine ⟨?_, fun nbrs => ?_⟩
  · unfold compute_optimized_jaccard
    rw [h]
  · have h2 : get_cached_similarity { s with neighbors := nbrs } a b = some c := h
    unfold compute_optimized_jaccard
    rw [h2]

theorem compute_cache_hit_returns_cached_witness :
    compute_optimized_jaccard exStore "A" "B" ["C"] (fun _ => none) = (1 / 2, exStore) :=
  (compute_cache_hit_returns_cached exStore "A" "B" ["C"] (fun _ => none) (1 / 2) rfl).1

/-- C3: `create_similarity_relationship s a b q` writes the score
symmetrically: afterwards both `get_cached_similarity (a, b)` and
`get_cached_similarity (b, a)` resolve to `some q` (for existing
endpoints, where the write actually happens). -/
theorem create_similarity_symmetric (s : Store) (a b : String) (q : ℚ)
    (ha : a ∈ s.subjects) (hb : b ∈ s.subjects) :
    get_cached_similarity (create_similarity_relationship s a b q) a b = some q ∧
    get_cached_similarity (create_similarity_relationship s a b q) b a = some q :=
  ⟨get_cached_create_left s a b q ha hb, get_cached_create_right s a b q ha hb⟩

theorem create_similarity_symmetric_witness :
    get_cached_similarity (create_similarity_relationship exStore "A" "C" (1 / 4)) "A" "C"
        = some (1 / 4) ∧
    get_cached_similarity (create_similarity_relationship exStore "A" "C" (1 / 4)) "C" "A"
        = some (1 / 4) :=
  create_similarity_symmetric exStore "A" "C" (1 / 4) (by decide) (by decide)

/-- C7: when the query trial has no community assignment,
`find_similar_trials_optimized` returns the empty list and leaves the
store unchanged (no scoring, no cache writes). -/
theorem no_community_empty_result (s : Store) (t : String) (k : Nat)
    (h : get_node_community s t = none) :
    find_similar_trials_optimized s t k = ([], s) :=
  find_none s t k h

theorem no_community_empty_result_witness :
    find_similar_trials_optimized exStore "Z" 10 = ([], exStore) :=
  no_community_empty_result exStore "Z" 10 rfl

/-- C8 counterexample: with endpoint `"Z"` absent from the store, the
cache write completes silently doing nothing — the store is returned
unchanged and neither direction of the pair becomes cached — instead of
reporting an entity-missing failure as the claim requires. -/
theorem create_missing_endpoint_cex :
    create_similarity_relationship exStore "A" "Z" (1 / 2) = exStore ∧
    get_cached_similarity (create_similarity_relationship exStore "A" "Z" (1 / 2)) "A" "Z"
        = none ∧
    get_cached_similarity (create_similarity_relationship exStore "A" "Z" (1 / 2)) "Z" "A"
        = none := by
  have h : create_similarity_relationship exStore "A" "Z" (1 / 2) = exStore :=
    create_not_found exStore "A" "Z" (1 / 2) (Or.inr (by decide))
  exact ⟨h, by rw [h]; rfl, by rw [h]; rfl⟩

/-- C8 (amended): when either endpoint of the pair does not exist in the
backing store, `create_similarity_relationship` is a silent no-op: the
`MATCH` clause binds nothing, no edge is written in either direction, no
failure is reported, and the store is returned unchanged. -/
theorem create_missing_endpoint_noop (s : Store) (a b : String) (q : ℚ)
    (h : a ∉ s.subjects ∨ b ∉ s.subjects) :
    create_similarity_relationship s a b q = s :=
  create_not_found s a b q h

theorem create_missing_endpoint_noop_witness :
    create_similarity_relationship exStore "Q" "B" (3 / 4) = exStore :=
  create_missing_endpoint_noop exStore "Q" "B" (3 / 4) (Or.inl (by decide))

/-- C10: the existence check trims the input identifier while the
ranking pipeline uses it verbatim, so an input that is a stored name
surrounded by whitespace (its trimmed form is stored, the raw form is
not) passes `check_node_exists` yet resolves to no community and yields
the empty result. -/
theorem trim_inconsistency (s : Store) (input : String) (k : Nat)
    (h1 : trimStr (trimStr input) ∈ s.subjects) (h2 : input ∉ s.subjects) :
    check_node_exists s input NodeLabel.SubjectNode = true ∧
    get_node_community s input = none ∧
    find_similar_trials_optimized s input k = ([], s) := by
  have hc : get_node_community s input = none := by
    unfold get_node_community
    rw [if_neg h2]
  refine ⟨?_, hc, find_none s input k hc⟩
  unfold check_node_exists
  simp only [decide_eq_true_eq]
  have hm : trimStr (trimStr input)
      ∈ s.subjects.filter (fun n => n = trimStr (trimStr input)) := by
    rw [List.mem_filter]
    exact ⟨h1, by simp⟩
  exact List.length_pos.mpr (List.ne_nil_of_mem hm)

theorem trim_inconsistency_witness :
    check_node_exists exStore " A " NodeLabel.SubjectNode = true ∧
    get_node_community exStore " A " = none ∧
    find_similar_trials_optimized exStore " A " 10 = ([], exStore) :=
  trim_inconsistency exStore " A " 10 (by decide) (by decide)

/-- The value `compute_optimized_jaccard` computes on a cache miss. -/
def miss_score (s : Store) (a b : String) (community_members : List String)
    (intermediate_sims : String → Option ℚ) : ℚ :=
  if (get_node_neighbors s a ∪ get_node_neighbors s b).card = 0 then 0
  else
    min 1 (((get_node_neighbors s a ∩ get_node_neighbors s b).card : ℚ)
      / ((get_node_neighbors s a ∪ get_node_neighbors s b).card : ℚ)
      + boost_factor s a b community_members intermediate_sims)

lemma compute_miss (s : Store) (a b : String) (community_members : List String)
    (intermediate_sims : String → Option ℚ)
    (hmiss : get_cached_similarity s a b = none) :
    compute_optimized_jaccard s a b community_members intermediate_sims
      = (miss_score s a b community_members intermediate_sims,
         create_similarity_relationship s a b
           (miss_score s a b community_members intermediate_sims)) := by
  unfold compute_optimized_jaccard miss_score
  rw [hmiss]

lemma boost_step_nonneg (s : Store) (a b : String) (intermediate_sims : String → Option ℚ)
    (m : String)
    (hcache : ∀ x y q, s.cache x y = some q → 0 ≤ q)
    (hiS : ∀ m' q, intermediate_sims m' = some q → 0 ≤ q) :
    0 ≤ boost_step s a b intermediate_sims m := by
  unfold boost_step get_cached_similarity
  split
  · exact le_refl 0
  · cases h1 : intermediate_sims m with
    | some v =>
        cases h2 : s.cache b m with
        | some w =>
            exact mul_nonneg (le_min (hiS m v h1) (hcache b m w h2)) (by norm_num)
        | none => exact le_refl 0
    | none =>
        cases h3 : s.cache a m with
        | some v =>
            cases h4 : s.cache b m with
            | some w =>
                exact mul_nonneg (le_min (hcache a m v h3) (hcache b m w h4)) (by norm_num)
            | none => exact le_refl 0
        | none => exact le_refl 0

lemma boost_factor_nonneg (s : Store) (a b : String) (community_members : List String)
    (intermediate_sims : String → Option ℚ)
    (hcache : ∀ x y q, s.cache x y = some q → 0 ≤ q)
    (hiS : ∀ m' q, intermediate_sims m' = some q → 0 ≤ q) :
    0 ≤ boost_factor s a b community_members intermediate_sims := by
  apply List.sum_nonneg
  intro x hx
  obtain ⟨m, _, rfl⟩ := List.mem_map.mp hx
  exact boost_step_nonneg s a b intermediate_sims m hcache hiS

lemma miss_score_bounds (s : Store) (a b : String) (community_members : List String)
    (intermediate_sims : String → Option ℚ)
    (hcache : ∀ x y q, s.cache x y = some q → 0 ≤ q)
    (hiS : ∀ m' q, intermediate_sims m' = some q → 0 ≤ q) :
    0 ≤ miss_score s a b community_members intermediate_sims ∧
    miss_score s a b community_members intermediate_sims ≤ 1 := by
  unfold miss_score
  split
  · exact ⟨le_refl 0, by norm_num⟩
  · constructor
    · apply le_min (by norm_num)
      apply add_nonneg
      · apply div_nonneg <;> exact Nat.cast_nonneg _
      · exact boost_factor_nonneg s a b community_members intermediate_sims hcache hiS
    · exact min_le_left _ _

/-- C5: on a cache miss where both entities have empty neighbor sets
(empty union), the computed score is exactly 0 — defined, with no boost
contribution. -/
theorem empty_neighbors_score_zero (s : Store) (a b : String)
    (community_members : List String) (intermediate_sims : String → Option ℚ)
    (hmiss : get_cached_similarity s a b = none)
    (ha : get_node_neighbors s a = ∅) (hb : get_node_neighbors s b = ∅) :
    (compute_optimized_jaccard s a b community_members intermediate_sims).1 = 0 := by
  rw [compute_miss s a b community_members intermediate_sims hmiss]
  unfold miss_score
  rw [ha, hb]
  simp

/-- A concrete store whose two subjects have no neighbors and no cached
pairs. -/
def emptyStore : Store where
  subjects := ["D", "E"]
  objects := []
  community := fun n => if n = "D" ∨ n = "E" then some 0 else none
  neighbors := fun _ => ∅
  cache := fun _ _ => none

theorem empty_neighbors_score_zero_witness :
    (compute_optimized_jaccard emptyStore "D" "E" ["D", "E"] (fun _ => none)).1 = 0 :=
  empty_neighbors_score_zero emptyStore "D" "E" ["D", "E"] (fun _ => none) rfl rfl rfl

/-- C4: on a cache miss, provided every cached score consulted by the
boost term and every precomputed intermediate similarity lies in
`[0, 1]`, the score `compute_optimized_jaccard` produces also lies in
`[0, 1]` — so boundedness is preserved by every scoring operation. -/
theorem computed_score_bounded (s : Store) (a b : String)
    (community_members : List String) (intermediate_sims : String → Option ℚ)
    (hmiss : get_cached_similarity s a b = none)
    (hcache : ∀ x y q, s.cache x y = some q → 0 ≤ q ∧ q ≤ 1)
    (hiS : ∀ m' q, intermediate_sims m' = some q → 0 ≤ q ∧ q ≤ 1) :
    0 ≤ (compute_optimized_jaccard s a b community_members intermediate_sims).1 ∧
    (compute_optimized_jaccard s a b community_members intermediate_sims).1 ≤ 1 := by
  rw [compute_miss s a b community_members intermediate_sims hmiss]
  exact miss_score_bounds s a b community_members intermediate_sims
    (fun x y q h => (hcache x y q h).1) (fun m' q h => (hiS m' q h).1)

theorem computed_score_bounded_witness :
    0 ≤ (compute_optimized_jaccard exStore "A" "C" ["B"]
          (get_intermediate_similarities exStore "A" ["B"])).1 ∧
    (compute_optimized_jaccard exStore "A" "C" ["B"]
          (get_intermediate_similarities exStore "A" ["B"])).1 ≤ 1 := by
  apply computed_score_bounded exStore "A" "C" ["B"]
    (get_intermediate_similarities exStore "A" ["B"]) rfl
  · intro x y q h
    simp only [exStore] at h
    split at h
    · cases h
      constructor <;> norm_num
    · cases h
  · intro m' q h
    simp only [get_intermediate_similarities, exStore] at h
    split at h
    · split at h
      · cases h
        constructor <;> norm_num
      · cases h
    · cases h

/-- Following the spec's words: `sim(a, m)` is taken from the caller's
precomputed map when present, otherwise it is a cache-only lookup. -/
def spec_sim_left (s : Store) (a : String) (intermediate_sims : String → Option ℚ)
    (m : String) : Option ℚ :=
  match intermediate_sims m with
  | some v => some v
  | none => get_cached_similarity s a m

/-- Following the spec's words: the contribution of community member `m`
to the boost `B` — `min(sim(a,m), sim(b,m)) × 0.1` when `m ≠ a`, `m ≠ b`
and both similarities are available, and nothing otherwise. -/
def spec_boost_term (s : Store) (a b : String) (intermediate_sims : String → Option ℚ)
    (m : String) : ℚ :=
  if m ≠ a ∧ m ≠ b then
    match spec_sim_left s a intermediate_sims m, get_cached_similarity s b m with
    | some x, some y => min x y * (1 / 10)
    | _, _ => 0
  else 0

/-- Following the spec's words: `B` is the sum of the boost
contributions over every community member. -/
def spec_boost (s : Store) (a b : String) (community_members : List String)
    (intermediate_sims : String → Option ℚ) : ℚ :=
  (community_members.map (spec_boost_term s a b intermediate_sims)).sum

lemma boost_step_eq_spec (s : Store) (a b : String) (intermediate_sims : String → Option ℚ)
    (m : String) :
    boost_step s a b intermediate_sims m = spec_boost_term s a b intermediate_sims m := by
  unfold boost_step spec_boost_term spec_sim_left
  by_cases h : m = a ∨ m = b
  · rw [if_pos h, if_neg (by tauto)]
  · rw [if_neg h, if_pos ⟨fun hm => h (Or.inl hm), fun hm => h (Or.inr hm)⟩]
    cases h1 : intermediate_sims m with
    | some v => cases h3 : get_cached_similarity s b m <;> simp
    | none =>
        cases h2 : get_cached_similarity s a m <;>
          cases h3 : get_cached_similarity s b m <;> simp

lemma boost_factor_eq_spec (s : Store) (a b : String) (community_members : List String)
    (intermediate_sims : String → Option ℚ) :
    boost_factor s a b community_members intermediate_sims
      = spec_boost s a b community_members intermediate_sims := by
  unfold boost_factor spec_boost
  have hfg : boost_step s a b intermediate_sims = spec_boost_term s a b intermediate_sims := by
    funext m
    exact boost_step_eq_spec s a b intermediate_sims m
  rw [hfg]

/-- C1: on a cache miss with a non-empty neighbor union, the score
returned equals `min(1, |I|/|U| + B)` with `B` the spec's boost sum; and
(for existing endpoints, where the persisting write takes effect) the
returned score is then cached for the pair. -/
theorem miss_score_formula (s : Store) (a b : String) (community_members : List String)
    (intermediate_sims : String → Option ℚ)
    (hmiss : get_cached_similarity s a b = none)
    (hU : (get_node_neighbors s a ∪ get_node_neighbors s b).Nonempty) :
    (compute_optimized_jaccard s a b community_members intermediate_sims).1
      = min 1 (((get_node_neighbors s a ∩ get_node_neighbors s b).card : ℚ)
          / ((get_node_neighbors s a ∪ get_node_neighbors s b).card : ℚ)
          + spec_boost s a b community_members intermediate_sims) ∧
    (a ∈ s.subjects → b ∈ s.subjects →
      get_cached_similarity
          (compute_optimized_jaccard s a b community_members intermediate_sims).2 a b
        = some (compute_optimized_jaccard s a b community_members intermediate_sims).1) := by
  have hcard : (get_node_neighbors s a ∪ get_node_neighbors s b).card ≠ 0 :=
    Nat.pos_iff_ne_zero.mp (Finset.card_pos.mpr hU)
  rw [compute_miss s a b community_members intermediate_sims hmiss]
  constructor
  · show miss_score s a b community_members intermediate_sims = _
    unfold miss_score
    rw [if_neg hcard, boost_factor_eq_spec]
  · intro ha hb
    exact get_cached_create_left s a b _ ha hb

theorem miss_score_formula_witness :
    (compute_optimized_jaccard exStore "A" "C" ["B"]
        (get_intermediate_similarities exStore "A" ["B"])).1
      = min 1 (((get_node_neighbors exStore "A" ∩ get_node_neighbors exStore "C").card : ℚ)
          / ((get_node_neighbors exStore "A" ∪ get_node_neighbors exStore "C").card : ℚ)
          + spec_boost exStore "A" "C" ["B"]
              (get_intermediate_similarities exStore "A" ["B"])) ∧
    ("A" ∈ exStore.subjects → "C" ∈ exStore.subjects →
      get_cached_similarity
          (compute_optimized_jaccard exStore "A" "C" ["B"]
            (get_intermediate_similarities exStore "A" ["B"])).2 "A" "C"
        = some (compute_optimized_jaccard exStore "A" "C" ["B"]
            (get_intermediate_similarities exStore "A" ["B"])).1) :=
  miss_score_formula exStore "A" "C" ["B"]
    (get_intermediate_similarities exStore "A" ["B"]) rfl (by decide)

/-! ### Properties of the stable descending sort -/

lemma sortedInsert_perm (x : String × ℚ) (l : List (String × ℚ)) :
    (sortedInsert x l).Perm (x :: l) := by
  induction l with
  | nil => exact List.Perm.refl _
  | cons y ys ih =>
      unfold sortedInsert
      split
      · exact List.Perm.refl _
      · exact (List.Perm.cons y ih).trans (List.Perm.swap x y ys)

lemma sortDesc_perm (l : List (String × ℚ)) : (sortDesc l).Perm l := by
  induction l with
  | nil => exact List.Perm.refl _
  | cons x xs ih => exact (sortedInsert_perm x (sortDesc xs)).trans (List.Perm.cons x ih)

lemma pairwise_sortedInsert (x : String × ℚ) (l : List (String × ℚ))
    (h : l.Pairwise (fun p r => r.2 ≤ p.2)) :
    (sortedInsert x l).Pairwise (fun p r => r.2 ≤ p.2) := by
  induction l with
  | nil => simp [sortedInsert]
  | cons y ys ih =>
      rw [List.pairwise_cons] at h
      obtain ⟨hy, hys⟩ := h
      unfold sortedInsert
      split
      · rename_i hle
        rw [List.pairwise_cons]
        refine ⟨fun z hz => ?_, List.pairwise_cons.mpr ⟨hy, hys⟩⟩
        rcases List.mem_cons.mp hz with rfl | hz'
        · exact hle
        · exact le_trans (hy z hz') hle
      · rename_i hgt
        rw [List.pairwise_cons]
        refine ⟨fun z hz => ?_, ih hys⟩
        rcases List.mem_cons.mp ((sortedInsert_perm x ys).mem_iff.mp hz) with rfl | hz'
        · exact le_of_not_le hgt
        · exact hy z hz'

lemma sortDesc_pairwise (l : List (String × ℚ)) :
    (sortDesc l).Pairwise (fun p r => r.2 ≤ p.2) := by
  induction l with
  | nil => simp [sortDesc]
  | cons x xs ih => exact pairwise_sortedInsert x (sortDesc xs) ih

lemma filter_sortedInsert (x : String × ℚ) (l : List (String × ℚ)) (v : ℚ) :
    (sortedInsert x l).filter (fun e => decide (e.2 = v))
      = (x :: l).filter (fun e => decide (e.2 = v)) := by
  induction l with
  | nil => rfl
  | cons y ys ih =>
      unfold sortedInsert
      split
      · rfl
      · rename_i hgt
        by_cases hx : x.2 = v <;> by_cases hy : y.2 = v
        · exact absurd (hy.trans hx.symm).le hgt
        · simp [List.filter_cons, hx, hy, ih]
        · simp [List.filter_cons, hx, hy, ih]
        · simp [List.filter_cons, hx, hy, ih]

lemma sortDesc_stable (l : List (String × ℚ)) (v : ℚ) :
    (sortDesc l).filter (fun e => decide (e.2 = v))
      = l.filter (fun e => decide (e.2 = v)) := by
  induction l with
  | nil => rfl
  | cons x xs ih =>
      show (sortedInsert x (sortDesc xs)).filter (fun e => decide (e.2 = v)) = _
      rw [filter_sortedInsert]
      simp [List.filter_cons, ih]

/-! ### The ranking pipeline, staged -/

/-- The candidate member list a query resolves to: the query trial's
community members with the first occurrence of the query trial removed
(empty when the trial has no community). -/
def candidate_members (s : Store) (trial_id : String) : List String :=
  match get_node_community s trial_id with
  | none => []
  | some community_id => (get_community_members s community_id).erase trial_id

/-- The unsorted `(member, similarity)` records produced by the scoring
loop, in member-list order. -/
def rawSimilarities (s : Store) (trial_id : String) : List (String × ℚ) :=
  (score_loop s trial_id
    (get_intermediate_similarities s trial_id (candidate_members s trial_id))
    (candidate_members s trial_id) (candidate_members s trial_id)).1

lemma find_fst (s : Store) (t : String) (k : Nat) :
    (find_similar_trials_optimized s t k).1 = (sortDesc (rawSimilarities s t)).take k := by
  unfold find_similar_trials_optimized rawSimilarities candidate_members
  cases h : get_node_community s t with
  | none => simp [h, score_loop, sortDesc]
  | some cid => simp [h]

lemma score_loop_mem (trial_id : String) (intermediate_sims : String → Option ℚ)
    (community_members : List String) :
    ∀ (l : List String) (s : Store) (p : String × ℚ),
      p ∈ (score_loop s trial_id intermediate_sims community_members l).1 → p.1 ∈ l := by
  intro l
  induction l with
  | nil =>
      intro s p hp
      simp [score_loop] at hp
  | cons m ms ih =>
      intro s p hp
      simp only [score_loop, List.mem_cons] at hp
      rcases hp with rfl | hp
      · exact List.mem_cons_self m ms
      · exact List.mem_cons_of_mem m (ih _ p hp)

/-- C6: the ranked result has length at most `top_k`; it is sorted in
descending score order; it is exactly the first `top_k` entries of the
stable descending sort of the loop-order records; and that sort applies
no tie-break beyond input order — for every score value, the entries
carrying that value appear in the same order as in the unsorted
loop-order list. -/
theorem topk_ranked_contract (s : Store) (t : String) (k : Nat) :
    (find_similar_trials_optimized s t k).1.length ≤ k ∧
    (find_similar_trials_optimized s t k).1.Pairwise (fun p r => r.2 ≤ p.2) ∧
    (find_similar_trials_optimized s t k).1 = (sortDesc (rawSimilarities s t)).take k ∧
    ∀ v : ℚ, (sortDesc (rawSimilarities s t)).filter (fun e => decide (e.2 = v))
        = (rawSimilarities s t).filter (fun e => decide (e.2 = v)) := by
  refine ⟨?_, ?_, find_fst s t k, fun v => sortDesc_stable _ v⟩
  · rw [find_fst s t k, List.length_take]
    exact min_le_left _ _
  · rw [find_fst s t k]
    exact List.Pairwise.sublist (List.take_sublist _ _) (sortDesc_pairwise _)

/-- C9: under the data-model invariant that subject identifiers are
unique, the query trial is removed from its own candidate member list
(the list passed into every `compute_optimized_jaccard` call), and it
never appears as an entry of its own ranked result. -/
theorem query_self_excluded (s : Store) (t : String) (k : Nat)
    (hnd : s.subjects.Nodup) :
    t ∉ candidate_members s t ∧
    ∀ p ∈ (find_similar_trials_optimized s t k).1, p.1 ≠ t := by
  have hmem : t ∉ candidate_members s t := by
    unfold candidate_members
    cases h : get_node_community s t with
    | none => simp
    | some cid =>
        simp only []
        exact (hnd.filter _).not_mem_erase
  refine ⟨hmem, fun p hp hpt => ?_⟩
  have h1 : p ∈ (sortDesc (rawSimilarities s t)).take k := by
    rw [← find_fst]
    exact hp
  have h3 : p ∈ rawSimilarities s t :=
    (sortDesc_perm _).mem_iff.mp (List.mem_of_mem_take h1)
  have h4 : p.1 ∈ candidate_members s t := score_loop_mem t _ _ _ s p h3
  rw [hpt] at h4
  exact hmem h4

theorem query_self_excluded_witness :
    "A" ∉ candidate_members exStore "A" ∧
    ∀ p ∈ (find_similar_trials_optimized exStore "A" 10).1, p.1 ≠ "A" :=
  query_self_excluded exStore "A" 10 (by decide)
